import Mathlib

/-!
Verification development for the journalClub repository.

The repository is a small Python pipeline with three scripts:
  - build_journal_club.py : reconciles a curated sessions.csv with extracted
    ent_all_results.json article records and writes data/journal_club.json;
  - populate_sessions.py  : an earlier variant that (re)generates sessions.csv;
  - tag_subjects.py       : re-tags sessions with subjects via regex rules and
    rewrites data/journal_club.json plus data/subject_summary.json.

This file shallowly embeds the pure logic of those scripts: strings are Lean
Strings, Python dictionaries are association lists, file input is passed
explicitly, and code that can raise is modelled with Except.
-/

deriving instance DecidableEq for Except

namespace Py

/-- Characters removed by Python str.strip() (ASCII whitespace). -/
def pySpace (c : Char) : Bool :=
  c = ' ' || c = '\t' || c = '\n' || c = '\r' || c = '\x0b' || c = '\x0c'

/-- Model of Python str.strip(): drop leading and trailing whitespace. -/
def pyStrip (s : String) : String :=
  ⟨((s.data.dropWhile pySpace).reverse.dropWhile pySpace).reverse⟩

/-- Model of Python str.lower() (per-character lowering). -/
def pyLower (s : String) : String :=
  ⟨s.data.map Char.toLower⟩

/-- Model of Python slicing s[:n]. -/
def pyTake (n : Nat) (s : String) : String :=
  ⟨s.data.take n⟩

/-- Model of the Python expression a or b on strings: a if non-empty else b. -/
def pyOr (a b : String) : String :=
  if a = "" then b else a

/-- Whether an Except value is a success. -/
def isOkE {ε α : Type} : Except ε α → Bool
  | .ok _ => true
  | .error _ => false

/-- Whether an Except value is a raised error. -/
def isErrorE {ε α : Type} : Except ε α → Bool
  | .ok _ => false
  | .error _ => true

/-- Numeric value of a list of decimal digit characters. -/
def digitsToNat (cs : List Char) : Nat :=
  cs.foldl (fun a c => a * 10 + (c.toNat - 48)) 0

/-- Lexicographic code-point comparison of character lists, the model of
Python's string less-than. -/
def lexLt : List Char → List Char → Bool
  | [], [] => false
  | [], _ :: _ => true
  | _ :: _, [] => false
  | a :: as, b :: bs =>
    if a.toNat < b.toNat then true
    else if b.toNat < a.toNat then false
    else lexLt as bs

/-- Model of Python's string less-than. -/
def pyStrLt (a b : String) : Bool :=
  lexLt a.data b.data

/-- A Python value as it can reach the field normalizers: None, a bool, a
string, a number (floats carried as their source token), a list or a dict. -/
inductive PyVal where
  | none : PyVal
  | bool (b : Bool) : PyVal
  | str (s : String) : PyVal
  | int (n : Int) : PyVal
  | float (tok : String) : PyVal
  | list (l : List PyVal) : PyVal
  | dict (d : List (String × PyVal)) : PyVal

/-- Whether a float token denotes 0.0 (all mantissa digits zero). -/
def floatIsZero (t : String) : Bool :=
  (((t.data.takeWhile (fun c => c ≠ 'e' ∧ c ≠ 'E')).filter Char.isDigit)).all (· = '0')

/-- Model of Python truthiness for the values PyVal covers. -/
def pyFalsy : PyVal → Bool
  | .none => true
  | .bool b => !b
  | .str s => s == ""
  | .int n => n == 0
  | .float t => floatIsZero t
  | .list l => l.isEmpty
  | .dict d => d.isEmpty

mutual

/-- Model of Python repr for PyVal (strings single-quoted). -/
def pyRepr : PyVal → String
  | .none => "None"
  | .bool true => "True"
  | .bool false => "False"
  | .str s => "\x27" ++ s ++ "\x27"
  | .int n => toString n
  | .float t => t
  | .list l => "[" ++ pyReprList l ++ "]"
  | .dict d => "\x7b" ++ pyReprDict d ++ "\x7d"

/-- Comma-separated reprs of the elements of a list. -/
def pyReprList : List PyVal → String
  | [] => ""
  | [v] => pyRepr v
  | v :: rest => pyRepr v ++ ", " ++ pyReprList rest

/-- Comma-separated reprs of the entries of a dict. -/
def pyReprDict : List (String × PyVal) → String
  | [] => ""
  | [(k, v)] => "\x27" ++ k ++ "\x27: " ++ pyRepr v
  | (k, v) :: rest => "\x27" ++ k ++ "\x27: " ++ pyRepr v ++ ", " ++ pyReprDict rest

end

/-- Model of Python str() applied to a PyVal. -/
def pyStr : PyVal → String
  | .str s => s
  | v => pyRepr v

/-- Model of the Python expression a or b on PyVal operands. -/
def pyOrV (a b : PyVal) : PyVal :=
  if pyFalsy a then b else a

/-- Model of dict.get(k) returning None when the key is absent; a duplicate
key (possible only for objects built by the JSON parser) resolves to its last
occurrence, as in Python's json. -/
def dictGet (d : List (String × PyVal)) (k : String) : PyVal :=
  match ((d.filter (fun p => p.1 == k)).getLast?) with
  | some p => p.2
  | Option.none => .none

/-- Model of Python str.split(sep) for a single-character separator, keeping
empty fields. -/
def splitKeepAux (sep : Char) : List Char → List Char → List String
  | [], cur => [⟨cur.reverse⟩]
  | c :: rest, cur =>
    if c = sep then ⟨cur.reverse⟩ :: splitKeepAux sep rest []
    else splitKeepAux sep rest (c :: cur)

/-- Model of Python str.split(sep) for a single-character separator. -/
def splitKeep (sep : Char) (s : String) : List String :=
  splitKeepAux sep s.data []

/-- Delimiter class of the regex used to split list fields: ; or newline. -/
def isDelim (c : Char) : Bool :=
  c = ';' || c = '\n'

/-- Maximal runs of non-delimiter characters. Model of re.split on a
one-or-more-delimiters pattern, up to the empty edge pieces re.split keeps;
every caller in the source filters those out immediately, so they are not
produced here. -/
def splitDelimRunsAux : List Char → List Char → List String
  | [], cur => if cur.isEmpty then [] else [⟨cur.reverse⟩]
  | c :: rest, cur =>
    if isDelim c then
      if cur.isEmpty then splitDelimRunsAux rest []
      else ⟨cur.reverse⟩ :: splitDelimRunsAux rest []
    else splitDelimRunsAux rest (c :: cur)

/-- Split a string into maximal runs of non-delimiter characters. -/
def splitDelimRuns (s : String) : List String :=
  splitDelimRunsAux s.data []

/-- Split a list of characters at the first occurrence of sep, the separator
excluded, as Python's two-argument str.split(sep, 1) does. -/
def splitFirstAux (sep : Char) : List Char → List Char → (String × String)
  | [], cur => (⟨cur.reverse⟩, "")
  | c :: rest, cur =>
    if c = sep then (⟨cur.reverse⟩, ⟨rest⟩)
    else splitFirstAux sep rest (c :: cur)

/-- Model of entry.split(sep, 1) for a single-character separator present or
absent in the entry. -/
def splitFirst (sep : Char) (s : String) : String × String :=
  splitFirstAux sep s.data []

/-- Whitespace skipped between JSON tokens. -/
def jsonWs (c : Char) : Bool :=
  c = ' ' || c = '\t' || c = '\n' || c = '\r'

/-- Read a JSON string body up to the closing quote. Handles the common
single-character escapes; unicode escapes are treated as unparseable. -/
def jsonStringAux : List Char → List Char → Option (String × List Char)
  | [], _ => Option.none
  | '"' :: rest, acc => some (⟨acc.reverse⟩, rest)
  | '\\' :: e :: rest, acc =>
    match e with
    | '"' => jsonStringAux rest ('"' :: acc)
    | '\\' => jsonStringAux rest ('\\' :: acc)
    | '/' => jsonStringAux rest ('/' :: acc)
    | 'n' => jsonStringAux rest ('\n' :: acc)
    | 't' => jsonStringAux rest ('\t' :: acc)
    | 'r' => jsonStringAux rest ('\r' :: acc)
    | 'b' => jsonStringAux rest ('\x08' :: acc)
    | 'f' => jsonStringAux rest ('\x0c' :: acc)
    | _ => Option.none
  | '\\' :: [], _ => Option.none
  | c :: rest, acc => jsonStringAux rest (c :: acc)

/-- Characters that may continue a JSON number token after its first digit. -/
def jsonNumCont (c : Char) : Bool :=
  c.isDigit || c = '.' || c = 'e' || c = 'E' || c = '+' || c = '-'

/-- Read a JSON number token; integer tokens become ints, anything with a
fraction or exponent is carried as a float token. -/
def jsonNumber (cs : List Char) : Option (PyVal × List Char) :=
  let neg := cs.head? = some '-'
  let body := if neg then cs.tail else cs
  let tok := body.takeWhile jsonNumCont
  let rest := body.dropWhile jsonNumCont
  if tok.isEmpty || !(tok.all Char.isDigit || tok.any (fun c => c = '.' || c = 'e' || c = 'E')) then
    Option.none
  else if !(tok.head?.map Char.isDigit).getD false then Option.none
  else if tok.all Char.isDigit then
    let n : Int := Int.ofNat (digitsToNat tok)
    some (.int (if neg then -n else n), rest)
  else
    some (.float ⟨(if neg then ['-'] else []) ++ tok⟩, rest)

mutual

/-- Fuel-bounded model of the recursive descent of Python's json.loads. -/
def jsonVal : Nat → List Char → Option (PyVal × List Char)
  | 0, _ => Option.none
  | fuel + 1, cs =>
    match cs.dropWhile jsonWs with
    | 'n' :: 'u' :: 'l' :: 'l' :: rest => some (.none, rest)
    | 't' :: 'r' :: 'u' :: 'e' :: rest => some (.bool true, rest)
    | 'f' :: 'a' :: 'l' :: 's' :: 'e' :: rest => some (.bool false, rest)
    | '"' :: rest => (jsonStringAux rest []).map (fun p => (.str p.1, p.2))
    | '[' :: rest =>
      (match (rest.dropWhile jsonWs) with
       | ']' :: rest2 => some (.list [], rest2)
       | _ => (jsonElems fuel rest).map (fun p => (.list p.1, p.2)))
    | '\x7b' :: rest =>
      (match (rest.dropWhile jsonWs) with
       | '\x7d' :: rest2 => some (.dict [], rest2)
       | _ => (jsonMembers fuel rest).map (fun p => (.dict p.1, p.2)))
    | rest => jsonNumber rest

/-- Parse one-or-more comma-separated array elements, then the closing bracket. -/
def jsonElems : Nat → List Char → Option (List PyVal × List Char)
  | 0, _ => Option.none
  | fuel + 1, cs =>
    match jsonVal fuel cs with
    | some (v, rest) =>
      (match rest.dropWhile jsonWs with
       | ',' :: rest2 =>
         (jsonElems fuel rest2).map (fun p => (v :: p.1, p.2))
       | ']' :: rest2 => some ([v], rest2)
       | _ => Option.none)
    | Option.none => Option.none

/-- Parse one-or-more comma-separated object members, then the closing brace. -/
def jsonMembers : Nat → List Char → Option (List (String × PyVal) × List Char)
  | 0, _ => Option.none
  | fuel + 1, cs =>
    match cs.dropWhile jsonWs with
    | '"' :: rest =>
      (match jsonStringAux rest [] with
       | some (k, rest2) =>
         (match rest2.dropWhile jsonWs with
          | ':' :: rest3 =>
            (match jsonVal fuel rest3 with
             | some (v, rest4) =>
               (match rest4.dropWhile jsonWs with
                | ',' :: rest5 =>
                  (jsonMembers fuel rest5).map (fun p => ((k, v) :: p.1, p.2))
                | '\x7d' :: rest5 => some ([(k, v)], rest5)
                | _ => Option.none)
             | Option.none => Option.none)
          | _ => Option.none)
       | Option.none => Option.none)
    | _ => Option.none

end

/-- Model of json.loads on a string: parse one value and require only
whitespace to remain. -/
def json_loads (s : String) : Option PyVal :=
  match jsonVal (s.length + 1) s.data with
  | some (v, rest) => if (rest.dropWhile jsonWs).isEmpty then some v else Option.none
  | Option.none => Option.none

end Py

namespace BuildJournalClub

open Py

/-- A calendar date as constructed by datetime in the scripts. -/
structure PyDate where
  year : Nat
  month : Nat
  day : Nat
deriving DecidableEq

/-- Gregorian leap-year test, as in Python's datetime. -/
def isLeap (y : Nat) : Bool :=
  (y % 4 == 0 && y % 100 != 0) || y % 400 == 0

/-- Number of days in a month, as validated by datetime's constructor. -/
def daysInMonth (y m : Nat) : Nat :=
  if m = 2 then (if isLeap y then 29 else 28)
  else if m = 4 ∨ m = 6 ∨ m = 9 ∨ m = 11 then 30
  else 31

/-- Model of the datetime(year, month, day) constructor: validates ranges and
raises (here: none) on an invalid calendar date. -/
def mkDateChecked (y m d : Nat) : Option PyDate :=
  if 1 ≤ y ∧ y ≤ 9999 ∧ 1 ≤ m ∧ m ≤ 12 ∧ 1 ≤ d ∧ d ≤ daysInMonth y m then
    some ⟨y, m, d⟩
  else none

/-- Month number for a 3-letter English month abbreviation, case-insensitively,
as matched by strptime's %b directive. -/
def monthOfAbbrev (cs : List Char) : Option Nat :=
  List.lookup (String.mk (cs.map Char.toLower))
    [("jan", 1), ("feb", 2), ("mar", 3), ("apr", 4), ("may", 5), ("jun", 6),
     ("jul", 7), ("aug", 8), ("sep", 9), ("oct", 10), ("nov", 11), ("dec", 12)]

/-- Year field of strptime's %Y directive: exactly four decimal digits. -/
def year4Valid (cs : List Char) : Option Nat :=
  if cs.length = 4 ∧ cs.all Char.isDigit then some (digitsToNat cs) else none

/-- Two-character day field of strptime's %d directive: two digits in 01..31. -/
def day2Valid (cs : List Char) : Option Nat :=
  if cs.length = 2 ∧ cs.all Char.isDigit then
    let v := digitsToNat cs
    if 1 ≤ v ∧ v ≤ 31 then some v else none
  else none

/-- Two-character month field of strptime's %m directive: two digits in 01..12. -/
def month2Valid (cs : List Char) : Option Nat :=
  if cs.length = 2 ∧ cs.all Char.isDigit then
    let v := digitsToNat cs
    if 1 ≤ v ∧ v ≤ 12 then some v else none
  else none

/-- Model of datetime.strptime(_, "%Y-%b-%d") applied to the already-split
year, month-abbreviation and day components. -/
def strptimeYbd (ys mon ds : List Char) : Option PyDate :=
  match year4Valid ys, monthOfAbbrev mon, day2Valid ds with
  | some y, some m, some d => mkDateChecked y m d
  | _, _, _ => none

/-- Model of datetime.strptime(_, "%Y-%m-%d") applied to the already-split
year, numeric-month and day components. -/
def strptimeYmd (ys ms ds : List Char) : Option PyDate :=
  match year4Valid ys, month2Valid ms, day2Valid ds with
  | some y, some m, some d => mkDateChecked y m d
  | _, _, _ => none

/-- Model of the regex fullmatch of a 4-digit-year dash 3-letter-month shape. -/
def matchYearMon (cs : List Char) : Bool :=
  cs.length == 8 && (cs.take 4).all Char.isDigit && cs[4]? == some '-'
    && (cs.drop 5).all Char.isAlpha

/-- Model of the regex fullmatch of a 4-digit-year dash 2-digit-month shape. -/
def matchYearNum (cs : List Char) : Bool :=
  cs.length == 7 && (cs.take 4).all Char.isDigit && cs[4]? == some '-'
    && (cs.drop 5).all Char.isDigit

/-- Modelled subset of datetime.fromisoformat: plain calendar dates of the
exact shape four-digit year, dash, two-digit month, dash, two-digit day; other
ISO-8601 forms accepted by newer Python are treated as unparseable here. -/
def fromisoformatDate (cs : List Char) : Option PyDate :=
  if cs.length == 10 && (cs.take 4).all Char.isDigit && cs[4]? == some '-'
      && ((cs.drop 5).take 2).all Char.isDigit && cs[7]? == some '-'
      && (cs.drop 8).all Char.isDigit then
    match year4Valid (cs.take 4), month2Valid ((cs.drop 5).take 2) with
    | some y, some m =>
      let d := digitsToNat (cs.drop 8)
      if 1 ≤ d ∧ d ≤ 31 then mkDateChecked y m d else none
    | _, _ => none
  else none

/-- Left-pad a number to two digits, as datetime's isoformat/strftime do. -/
def pad2 (n : Nat) : String :=
  if n < 10 then "0" ++ toString n else toString n

/-- Left-pad a year to four digits, as datetime's isoformat/strftime do. -/
def pad4 (n : Nat) : String :=
  if n < 10 then "000" ++ toString n
  else if n < 100 then "00" ++ toString n
  else if n < 1000 then "0" ++ toString n
  else toString n

/-- Model of dt.date().isoformat(). -/
def isoOfDate (d : PyDate) : String :=
  pad4 d.year ++ "-" ++ pad2 d.month ++ "-" ++ pad2 d.day

/-- Model of dt.strftime("%Y-%m"). -/
def ymOfDate (d : PyDate) : String :=
  pad4 d.year ++ "-" ++ pad2 d.month

/-- The try-block of build_journal_club.normalize_date: dispatch on the shape
of the trimmed date string, then parse; none models a raised exception. -/
def dateDispatch (s : String) : Option PyDate :=
  let cs := s.data
  if cs.length = 11 ∧ cs[4]? = some '-' ∧ cs[8]? = some '-' then
    strptimeYbd (cs.take 4) ((cs.drop 5).take 3) (cs.drop 9)
  else if matchYearMon cs then
    strptimeYbd (cs.take 4) (cs.drop 5) ['0', '1']
  else if matchYearNum cs then
    strptimeYmd (cs.take 4) (cs.drop 5) ['0', '1']
  else fromisoformatDate cs

/-- build_journal_club.normalize_date: select the session date string if
truthy, else the publication date string, trim, return "" when empty, on a
successful parse return the ISO form, on a parse failure pass the trimmed
string through. -/
def normalize_date (date_str_from_session date_str_from_pub : String) : String :=
  let date_str := pyStrip (pyOr date_str_from_session (pyOr date_str_from_pub ""))
  if date_str = "" then ""
  else
    match dateDispatch date_str with
    | some dt => isoOfDate dt
    | none => date_str

/-- The try-block of build_journal_club.normalize_month: the same shapes as
normalize_date except that an 11-character full date is handed directly to
fromisoformat (and so fails there). -/
def monthDispatch (s : String) : Option PyDate :=
  let cs := s.data
  if matchYearMon cs then
    strptimeYbd (cs.take 4) (cs.drop 5) ['0', '1']
  else if matchYearNum cs then
    strptimeYmd (cs.take 4) (cs.drop 5) ['0', '1']
  else fromisoformatDate cs

/-- build_journal_club.normalize_month: derive a YYYY-MM string from a month
field, falling back to the first 7 characters of a full ISO date, and on a
parse failure to the first 7 characters of the raw month string. -/
def normalize_month (month_field date_iso : String) : String :=
  let raw_month := pyStrip month_field
  if raw_month = "" ∧ date_iso ≠ "" then pyTake 7 date_iso
  else
    match monthDispatch raw_month with
    | some dt => ymOfDate dt
    | none => if raw_month ≠ "" then pyTake 7 raw_month else ""

/-- build_journal_club.parse_bool: pass booleans through, treat None as
false, otherwise compare the trimmed lowered string form against a fixed
truthy set. -/
def parse_bool : PyVal → Bool
  | .bool b => b
  | .none => false
  | v => ["1", "true", "yes", "y", "highlight", "t"].contains (pyLower (pyStrip (pyStr v)))

/-- An image entry of the output: a url with an optional caption. -/
structure Image where
  url : String
  caption : String
deriving DecidableEq

/-- The inner normalise_image of build_journal_club.parse_images: a string
becomes a caption-less entry, a dict is read through its url/src and
caption/alt keys, anything without a non-empty url is dropped. -/
def normalise_image : PyVal → Option Image
  | .str s =>
    let url := pyStrip s
    if url ≠ "" then some ⟨url, ""⟩ else Option.none
  | .dict d =>
    let url := pyStrip (pyStr (pyOrV (dictGet d "url") (pyOrV (dictGet d "src") (.str ""))))
    let caption := pyStrip (pyStr (pyOrV (dictGet d "caption") (pyOrV (dictGet d "alt") (.str ""))))
    if url ≠ "" then some ⟨url, caption⟩ else Option.none
  | _ => Option.none

/-- The delimited-text fallback of parse_images: split the text on runs of
semicolons and newlines, then split each entry at the first pipe, else the
first comma, into a url/caption dict. -/
def imagesFromDelimited (text : String) : List PyVal :=
  ((splitDelimRuns text).map pyStrip).filter (fun e => e ≠ "") |>.map (fun entry =>
    let (url, caption) :=
      if entry.data.contains '|' then splitFirst '|' entry
      else if entry.data.contains ',' then splitFirst ',' entry
      else (entry, "")
    PyVal.dict [("url", .str (pyStrip url)), ("caption", .str (pyStrip caption))])

/-- The raw_list computation of build_journal_club.parse_images: a list is
used as is; otherwise the string form is parsed as JSON (an array, or any
other value wrapped as a one-element list) and, failing that, as delimited
text; an empty string form (the early return of the source) yields none. -/
def rawImageList (field : PyVal) : Option (List PyVal) :=
  match field with
  | .list l => some l
  | v =>
    let text := pyStrip (pyStr v)
    if text = "" then Option.none
    else
      match json_loads text with
      | some (.list l) => some l
      | some parsed => some [parsed]
      | Option.none => some (imagesFromDelimited text)

/-- build_journal_club.parse_images: the tolerant multi-format image-list
normalizer. A falsy field yields no images; every entry of the raw list is
normalised and entries without a usable url are dropped. -/
def parse_images (field : PyVal) : List Image :=
  if pyFalsy field then []
  else
    match rawImageList field with
    | Option.none => []
    | some l => l.filterMap normalise_image

/-- build_journal_club.parse_subjects: split on semicolons, then commas, trim
each part and drop the empty ones. -/
def parse_subjects (subjects_field : String) : List String :=
  if subjects_field = "" then []
  else
    (((splitKeep ';' subjects_field).map (splitKeep ',')).flatten).filterMap
      (fun part => let t := pyStrip part; if t = "" then Option.none else some t)

/-- The list comprehension closing build_journal_club.parse_highlights: keep
the items whose string form trims non-empty, stripping each; a kept item that
is not itself a string makes Python raise AttributeError on item.strip(),
modelled as an error. -/
def hlFilter : List PyVal → Except String (List String)
  | [] => .ok []
  | item :: rest =>
    if pyStrip (pyStr item) = "" then hlFilter rest
    else
      match item with
      | .str s => (hlFilter rest).map (fun l => pyStrip s :: l)
      | _ => .error "AttributeError: strip"

/-- build_journal_club.parse_highlights: a falsy field yields no highlights, a
list is filtered item-wise, any other value is stringified and split on runs
of semicolons and newlines. -/
def parse_highlights (field : PyVal) : Except String (List String) :=
  if pyFalsy field then .ok []
  else
    match field with
    | .list items => hlFilter items
    | v =>
      let text := pyStrip (pyStr v)
      if text = "" then .ok []
      else hlFilter ((splitDelimRuns text).map PyVal.str)

/-- An article record from an ent_all_results.json file. Values that can be
absent or JSON null in the source arrive here as the empty string, matching
how every consumer immediately coalesces them with an or-chain; the PMID
carries the str() form of the raw value. -/
structure Article where
  PMID : String := ""
  Title : String := ""
  Journal : String := ""
  Authors : String := ""
  Abstract : String := ""
  DOI : String := ""
  Publication_Date : String := ""
  PublicationDate : String := ""
deriving DecidableEq

/-- A curated row of sessions.csv as produced by csv.DictReader: every
recognized column as a raw string, a missing column as the empty string. -/
structure Row where
  pmid : String := ""
  date : String := ""
  presenter : String := ""
  title : String := ""
  journal : String := ""
  authors : String := ""
  abstract : String := ""
  doi : String := ""
  pdf : String := ""
  notes : String := ""
  subjects : String := ""
  highlight : String := ""
  analysis : String := ""
  images : String := ""
  summary_month : String := ""
  summary_headline : String := ""
  summary_paragraph : String := ""
  summary_highlights : String := ""
deriving DecidableEq

/-- A canonical merged session, the dict appended to the output list. -/
structure Session where
  date : String
  presenter : String
  title : String
  journal : String
  authors : String
  abstract : String
  doi : String
  pmid : String
  pdf : String
  notes : String
  subjects : List String
  highlight : Bool
  analysis : String
  images : List Image
deriving DecidableEq

/-- A monthly narrative summary bundle. -/
structure Summary where
  month : String
  headline : String
  paragraph : String
  key_highlights : List String
deriving DecidableEq

/-- First-match lookup in an association list modelling a Python dict. -/
def alookup {β : Type} : List (String × β) → String → Option β
  | [], _ => Option.none
  | (k, v) :: rest, q => if q = k then some v else alookup rest q

/-- Model of the Python dict assignment d[k] = v: update the value in place
when the key exists, append otherwise. -/
def dictSet {β : Type} : List (String × β) → String → β → List (String × β)
  | [], k, v => [(k, v)]
  | (k1, v1) :: rest, k, v =>
    if k1 = k then (k, v) :: rest else (k1, v1) :: dictSet rest k v

/-- Model of dict.setdefault(k, v): insert only when the key is absent. -/
def setdefault {β : Type} (d : List (String × β)) (k : String) (v : β) :
    List (String × β) :=
  if (alookup d k).isSome then d else d ++ [(k, v)]

/-- One candidate ent_all_results.json location: missing, present but not
valid JSON, or a parsed array of article objects. -/
inductive FileState where
  | absent
  | malformed
  | parsed (articles : List Article)
deriving DecidableEq

/-- One indexing step of build_journal_club.load_ent_index: index the article
under its trimmed PMID (last write wins), skipping empty PMIDs. -/
def insertArticle (index : List (String × Article)) (a : Article) :
    List (String × Article) :=
  let pmid := pyStrip a.PMID
  if pmid ≠ "" then dictSet index pmid a else index

/-- The directory walk of build_journal_club.load_ent_index over the files in
discovery order: absent files are skipped, a present file that is not valid
JSON raises, parsed articles are indexed in order. -/
def loadEntAux (acc : List (String × Article)) :
    List FileState → Except String (List (String × Article))
  | [] => .ok acc
  | .absent :: rest => loadEntAux acc rest
  | .malformed :: _ => .error "json.decoder.JSONDecodeError"
  | .parsed arts :: rest => loadEntAux (arts.foldl insertArticle acc) rest

/-- build_journal_club.load_ent_index. -/
def load_ent_index (files : List FileState) : Except String (List (String × Article)) :=
  loadEntAux [] files

/-- build_journal_club.load_sessions: opening a missing sessions.csv raises. -/
def load_sessions (file : Option (List Row)) : Except String (List Row) :=
  match file with
  | Option.none => .error "FileNotFoundError: sessions.csv"
  | some rows => .ok rows

/-- The session dict literal of build_journal_club.main (the merge of one
curated row with its matched article). -/
def mkSession (pmid date_iso : String) (s : Row) (art : Article) : Session where
  date := date_iso
  presenter := pyStrip s.presenter
  title := pyOr (pyStrip s.title) (pyStrip art.Title)
  journal := pyOr (pyStrip s.journal) (pyStrip art.Journal)
  authors := pyOr (pyStrip s.authors) (pyStrip art.Authors)
  abstract := pyOr (pyStrip s.abstract) (pyStrip art.Abstract)
  doi := pyStrip art.DOI
  pmid := pmid
  pdf := pyStrip (pyOr s.pdf ("https://pubmed.ncbi.nlm.nih.gov/" ++ pmid ++ "/"))
  notes := pyStrip s.notes
  subjects := parse_subjects s.subjects
  highlight := parse_bool (.str s.highlight)
  analysis := pyStrip s.analysis
  images := parse_images (.str s.images)

/-- The summary dict literal registered by build_journal_club.main. -/
def mkSummary (summary_month summary_headline summary_paragraph : String)
    (summary_highlights : List String) : Summary where
  month := summary_month
  headline := summary_headline
  paragraph := summary_paragraph
  key_highlights := summary_highlights

/-- The diagnostic line printed for an unmatched PMID. -/
def warnMsg (pmid : String) : String :=
  "WARNING: PMID " ++ pmid ++ " from sessions.csv not found in any ent_all_results.json"

/-- The local date_iso of the main loop: the normalized date of the curated
date and the article's publication date (under either key spelling). -/
def rowDateIso (s : Row) (art : Article) : String :=
  normalize_date s.date (pyOr art.Publication_Date art.PublicationDate)

/-- The local summary_month of the main loop. -/
def rowSummaryMonth (s : Row) (art : Article) : String :=
  normalize_month s.summary_month (rowDateIso s art)

/-- The truthiness test of the main loop's summary registration: at least one
of the stripped headline, the stripped paragraph or the parsed highlights is
non-empty. -/
def rowBundleNonempty (s : Row) (hls : List String) : Prop :=
  pyStrip s.summary_headline ≠ "" ∨ pyStrip s.summary_paragraph ≠ "" ∨ hls ≠ []

instance (s : Row) (hls : List String) : Decidable (rowBundleNonempty s hls) := by
  unfold rowBundleNonempty
  infer_instance

/-- The summary dict the main loop registers for one row. -/
def rowSummary (s : Row) (art : Article) (hls : List String) : Summary :=
  mkSummary (rowSummaryMonth s art) (pyStrip s.summary_headline)
    (pyStrip s.summary_paragraph) hls

/-- The summary-registration step of the main loop: setdefault the row's
summary under its month when the month is non-empty and the bundle is
non-empty, otherwise leave the dict unchanged. -/
def registerSummary (acc : List (String × Summary)) (s : Row) (art : Article)
    (hls : List String) : List (String × Summary) :=
  if rowSummaryMonth s art ≠ "" ∧ rowBundleNonempty s hls then
    setdefault acc (rowSummaryMonth s art) (rowSummary s art hls)
  else acc

/-- The session loop of build_journal_club.main: for each curated row in
table order, look its trimmed PMID up in the index; an unmatched row only
adds a diagnostic; a matched row appends a merged session and registers its
monthly-summary bundle first-wins when the bundle is non-empty. Returns the
unsorted session list, the summary dict and the diagnostics. -/
def processSessions (index : List (String × Article)) (acc : List (String × Summary)) :
    List Row → Except String (List Session × List (String × Summary) × List String)
  | [] => .ok ([], acc, [])
  | s :: rest =>
    match alookup index (pyStrip s.pmid) with
    | Option.none =>
      (processSessions index acc rest).map
        (fun t => (t.1, t.2.1, warnMsg (pyStrip s.pmid) :: t.2.2))
    | some art =>
      match parse_highlights (.str s.summary_highlights) with
      | .error e => .error e
      | .ok summary_highlights =>
        (processSessions index (registerSummary acc s art summary_highlights) rest).map
          (fun t => (mkSession (pyStrip s.pmid) (rowDateIso s art) s art :: t.1, t.2.1, t.2.2))

/-- Stable insertion step for a descending sort by a string key, modelling
list.sort(key=..., reverse=True). -/
def insertDescBy {α : Type} (key : α → String) (x : α) : List α → List α
  | [] => [x]
  | y :: ys => if pyStrLt (key y) (key x) then x :: y :: ys else y :: insertDescBy key x ys

/-- Sort a list descending by a string key. -/
def sortDescBy {α : Type} (key : α → String) (l : List α) : List α :=
  l.foldr (insertDescBy key) []

/-- The primary output document of build_journal_club.main: the session list
sorted by date descending and the monthly summaries sorted by month
descending. -/
structure Payload where
  sessions : List Session
  monthly_summaries : List Summary
deriving DecidableEq

/-- build_journal_club.main after loading: process the rows, sort the
sessions newest first, and list the summaries by month descending. -/
def buildPayload (index : List (String × Article)) (rows : List Row) :
    Except String Payload :=
  (processSessions index [] rows).map (fun t =>
    { sessions := sortDescBy Session.date t.1
      monthly_summaries :=
        (sortDescBy (fun m => m) (t.2.1.map Prod.fst)).filterMap (alookup t.2.1) })

/-- The articles of the discovered files in discovery order, malformed and
absent files contributing nothing. -/
def allArticles : List FileState → List Article
  | [] => []
  | .absent :: rest => allArticles rest
  | .malformed :: rest => allArticles rest
  | .parsed arts :: rest => arts ++ allArticles rest

/-- Reference function for the last-write-wins indexing policy: the
most-recently-discovered article whose trimmed PMID equals the key. -/
def lastMatch (p : String) : List Article → Option Article
  | [] => Option.none
  | a :: rest =>
    match lastMatch p rest with
    | some x => some x
    | Option.none => if pyStrip a.PMID = p then some a else Option.none

/-- Reference function for the first-wins indexing policy: the
first-discovered article whose trimmed PMID equals the key. -/
def firstMatch (p : String) : List Article → Option Article
  | [] => Option.none
  | a :: rest => if pyStrip a.PMID = p then some a else firstMatch p rest

/-- Reference function for the monthly-summary lifecycle: scanning the rows
in table order, the summary bundle of the first row that matches the index,
normalizes to the given month, and carries a non-empty
headline/paragraph/highlights bundle. -/
def firstSummary (index : List (String × Article)) (m : String) : List Row → Option Summary
  | [] => Option.none
  | s :: rest =>
    match alookup index (pyStrip s.pmid) with
    | Option.none => firstSummary index m rest
    | some art =>
      match parse_highlights (.str s.summary_highlights) with
      | .error _ => Option.none
      | .ok summary_highlights =>
        if rowSummaryMonth s art = m ∧ rowSummaryMonth s art ≠ "" ∧
            rowBundleNonempty s summary_highlights then
          some (rowSummary s art summary_highlights)
        else firstSummary index m rest

end BuildJournalClub

namespace PopulateSessions

open Py BuildJournalClub

/-- One indexing step of populate_sessions.load_ent_index: index the article
under its trimmed PMID only when that PMID is not yet present (first wins). -/
def insertArticleFirst (index : List (String × Article)) (a : Article) :
    List (String × Article) :=
  let pmid := pyStrip a.PMID
  if pmid ≠ "" ∧ (alookup index pmid).isNone then index ++ [(pmid, a)] else index

/-- The directory walk of populate_sessions.load_ent_index. -/
def loadEntAux (acc : List (String × Article)) :
    List FileState → Except String (List (String × Article))
  | [] => .ok acc
  | .absent :: rest => loadEntAux acc rest
  | .malformed :: _ => .error "json.decoder.JSONDecodeError"
  | .parsed arts :: rest => loadEntAux (arts.foldl insertArticleFirst acc) rest

/-- populate_sessions.load_ent_index. -/
def load_ent_index (files : List FileState) : Except String (List (String × Article)) :=
  loadEntAux [] files

/-- populate_sessions.load_manual_sessions: a missing sessions.csv yields an
empty index rather than raising; rows with a non-empty trimmed PMID are
indexed by it. -/
def load_manual_sessions (file : Option (List Row)) : Except String (List (String × Row)) :=
  match file with
  | Option.none => .ok []
  | some rows =>
    .ok (rows.foldl
      (fun manual row =>
        let pmid := pyStrip row.pmid
        if pmid ≠ "" then dictSet manual pmid row else manual) [])

end PopulateSessions

namespace TagSubjects

open Py BuildJournalClub

/-- Word characters for the regex word-boundary semantics (ASCII subset of
Python's \w). -/
def isWordChar (c : Char) : Bool :=
  c.isAlphanum || c = '_'

/-- Whether the pattern occurs as a prefix of some suffix of the text, the
search semantics of re.search for a plain substring pattern. -/
def containsSub (pat : List Char) : List Char → Bool
  | [] => pat.isPrefixOf ([] : List Char)
  | c :: rest => pat.isPrefixOf (c :: rest) || containsSub pat rest

/-- Whether the pattern matches at the front of the text with a word boundary
immediately after it. -/
def wordEndAt (pat hay : List Char) : Bool :=
  pat.isPrefixOf hay &&
    (match hay.drop pat.length with
     | [] => true
     | c :: _ => !isWordChar c)

/-- Search for the pattern followed by a word boundary. -/
def containsWordEnd (pat : List Char) : List Char → Bool
  | [] => wordEndAt pat []
  | c :: rest => wordEndAt pat (c :: rest) || containsWordEnd pat rest

/-- Search for the pattern delimited by word boundaries on both sides; the
boolean argument records whether the previous character was a word character. -/
def wordBothAux (pat : List Char) : Bool → List Char → Bool
  | _, [] => false
  | prevWord, c :: rest =>
    (!prevWord && wordEndAt pat (c :: rest)) || wordBothAux pat (isWordChar c) rest

/-- Whether the text contains the given lowercase word, word-boundary matched
on both sides and case-insensitively, as one alternative of the pediatric
pattern does. -/
def containsWord (w : String) (text : String) : Bool :=
  wordBothAux w.data false (pyLower text).data

/-- A compiled pattern of the rule table: a plain case-insensitive substring,
a substring that must end at a word boundary, or a two-way alternation. -/
inductive Pat where
  | lit (s : String)
  | wordEnd (s : String)
  | alt (a b : String)

/-- Whether a pattern matches somewhere in the (already lowered) text. -/
def Pat.matchesL (t : List Char) : Pat → Bool
  | .lit s => containsSub s.data t
  | .wordEnd s => containsWordEnd s.data t
  | .alt a b => containsSub a.data t || containsSub b.data t

/-- The rule table of tag_subjects.compile_rules, in source order; every
pattern is a case-insensitive substring except the word-boundary-terminated
osa and the alternation for the two spellings of tumor. -/
def SUBJECT_RULES : List (String × List Pat) :=
  [("Rhinology & Allergy",
    [.lit "rhino", .lit "sinus", .lit "nasal", .lit "nose", .lit "septum",
     .lit "polyp", .lit "olfact", .lit "smell", .lit "sinonasal",
     .lit "nasophary", .lit "epistaxis"]),
   ("Otology & Neurotology",
    [.lit "cochlea", .lit "ear", .lit "otic", .lit "tympan", .lit "mastoid",
     .lit "ossicul", .lit "vestib", .lit "tinnitus", .lit "hearing",
     .lit "ossicular", .lit "otos", .lit "eustachian"]),
   ("Audiology & Hearing Science",
    [.lit "audiology", .lit "audiogram", .lit "speech perception",
     .lit "listening", .lit "hearing aid", .lit "cochlear implant"]),
   ("Laryngology & Voice",
    [.lit "laryn", .lit "vocal cord", .lit "voice", .lit "phonation",
     .lit "glott", .lit "dysphonia", .lit "esophag"]),
   ("Airway & Trachea",
    [.lit "airway", .lit "trache", .lit "bronch", .lit "intubat",
     .lit "decann", .lit "stent"]),
   ("Sleep Medicine",
    [.lit "sleep", .lit "apnea", .lit "hypopnea", .lit "cpap", .wordEnd "osa"]),
   ("Head & Neck Oncology",
    [.lit "carcinoma", .lit "cancer", .alt "tumor" "tumour", .lit "neoplasm",
     .lit "sarcoma", .lit "oncology", .lit "malignan", .lit "papilloma"]),
   ("Endocrine (Thyroid/Parathyroid)",
    [.lit "thyroid", .lit "parathy", .lit "endocrine"]),
   ("Salivary & Oral Cavity",
    [.lit "salivar", .lit "parotid", .lit "submandibular", .lit "sublingual",
     .lit "sialo", .lit "oral cavity", .lit "tongue", .lit "palate",
     .lit "tonsil"]),
   ("Facial Plastics & Reconstruction",
    [.lit "facial", .lit "reconstruct", .lit "rhinoplast", .lit "cleft",
     .lit "aesthe", .lit "cosmetic", .lit "flap", .lit "graft", .lit "scar"]),
   ("Skull Base & Cranial",
    [.lit "skull base", .lit "cranial", .lit "intracran", .lit "cerebrospinal",
     .lit "csf", .lit "pituitar", .lit "meningioma"]),
   ("Trauma",
    [.lit "trauma", .lit "fracture", .lit "injur", .lit "gunshot",
     .lit "laceration"]),
   ("Infectious Disease",
    [.lit "infect", .lit "viral", .lit "bacterial", .lit "fungal",
     .lit "abscess", .lit "mycobacter", .lit "sepsis"])]

/-- The alternatives of tag_subjects.PEDIATRIC_PATTERN, in source order. -/
def pedWords : List String :=
  ["pediatric", "child", "children", "infant", "neonate", "adolesc",
   "toddler", "newborn"]

/-- Whether the pediatric pattern matches the text. -/
def pediatricSearch (text : String) : Bool :=
  pedWords.any (fun w => containsWord w text)

/-- Insert a string into a strictly-sorted duplicate-free list. -/
def insertUniq (x : String) : List String → List String
  | [] => [x]
  | y :: ys =>
    if pyStrLt x y then x :: y :: ys
    else if x = y then y :: ys
    else y :: insertUniq x ys

/-- Model of Python sorted(set(l)) for strings. -/
def sortedDedup (l : List String) : List String :=
  l.foldr insertUniq []

/-- tag_subjects.assign_subjects: collect the names of the matching topic
rules in table order, overlay Pediatrics when the pediatric pattern matches,
fall back to a fixed tag when nothing matched, and return the sorted set. -/
def assign_subjects (text : String) : List String :=
  let t := (pyLower text).data
  let matches1 := (SUBJECT_RULES.filter (fun r => r.2.any (Pat.matchesL t))).map Prod.fst
  let matches2 := if pediatricSearch text then matches1 ++ ["Pediatrics"] else matches1
  let matches3 := if matches2.isEmpty then ["General ENT/Other"] else matches2
  sortedDedup matches3

/-- The text assembled for one session by tag_subjects.update_sessions:
title, journal, abstract and notes, empty fields dropped, joined by spaces. -/
def sessionText (s : Session) : String :=
  String.intercalate " " ([s.title, s.journal, s.abstract, s.notes].filter (fun x => x ≠ ""))

/-- tag_subjects.update_sessions: replace each session's subjects with the
classifier output for its assembled text, leaving everything else unchanged. -/
def update_sessions (sessions : List Session) : List Session :=
  sessions.map (fun s => { s with subjects := assign_subjects (sessionText s) })

/-- A top-level value of an output JSON document. -/
inductive DocVal where
  | sessionsVal (l : List Session)
  | summariesVal (l : List Summary)
deriving DecidableEq

/-- The top-level keys of the document build_journal_club.main writes. -/
def payloadDoc (p : Payload) : List (String × DocVal) :=
  [("sessions", .sessionsVal p.sessions),
   ("monthly_summaries", .summariesVal p.monthly_summaries)]

/-- The top-level keys of the document tag_subjects.write_output writes over
data/journal_club.json: only the sessions key. -/
def write_output_doc (sessions : List Session) : List (String × DocVal) :=
  [("sessions", .sessionsVal sessions)]

/-- The primary artifact after a full pipeline run: build_journal_club writes
the two-key document, then tag_subjects.main loads its sessions, re-tags them
and rewrites the same file via write_output. -/
def full_run_primary_doc (index : List (String × Article)) (rows : List Row) :
    Except String (List (String × DocVal)) :=
  (buildPayload index rows).map (fun p => write_output_doc (update_sessions p.sessions))

end TagSubjects

namespace Fixtures

open Py BuildJournalClub

/-- An extracted article with a title, DOI and publication date, matched by
curated rows with PMID 1. -/
def C1art : Article :=
  { PMID := "1", Title := "Extracted Title", DOI := "ExtractedDOI",
    Publication_Date := "2025-Oct-31" }

/-- A curated row overriding the title and the DOI. -/
def C1row : Row :=
  { pmid := "1", title := "Custom Title", doi := "CustomDOI" }

/-- First of two articles sharing PMID 1. -/
def C5A1 : Article := { PMID := "1", Title := "first record" }

/-- Second of two articles sharing PMID 1. -/
def C5A2 : Article := { PMID := "1", Title := "second record" }

/-- The extracted files for the duplicate-identifier scenario: two files in
discovery order, each holding one of the records with PMID 1. -/
def C5files : List FileState := [.parsed [C5A1], .parsed [C5A2]]

/-- An article for the first of the two same-month rows. -/
def C6a1 : Article := { PMID := "1" }

/-- An article for the second of the two same-month rows. -/
def C6a2 : Article := { PMID := "2" }

/-- The index over the two articles. -/
def C6index : List (String × Article) := [("1", C6a1), ("2", C6a2)]

/-- Two curated rows whose summaries both resolve to month 2025-03, each with
a non-empty headline. -/
def C6rows : List Row :=
  [{ pmid := "1", summary_month := "2025-03", summary_headline := "first headline" },
   { pmid := "2", summary_month := "2025-03", summary_headline := "second headline" }]

/-- The summary dict produced for C6rows: only the first bundle. -/
def C6sums : List (String × Summary) :=
  [("2025-03", { month := "2025-03", headline := "first headline", paragraph := "",
                 key_highlights := [] })]

/-- An article with PMID 1 used by the skip scenario. -/
def C7art : Article := { PMID := "1" }

/-- The result triple processSessions returns on C6index and C6rows. -/
def C6res : List Session × List (String × Summary) × List String :=
  ([mkSession "1" "" (C6rows.get ⟨0, by decide⟩) C6a1,
    mkSession "2" "" (C6rows.get ⟨1, by decide⟩) C6a2],
   C6sums, [])

/-- Articles for the sorting scenario. -/
def C3a1 : Article := { PMID := "1" }

/-- Second article for the sorting scenario. -/
def C3a2 : Article := { PMID := "2" }

/-- The index over the sorting-scenario articles. -/
def C3index : List (String × Article) := [("1", C3a1), ("2", C3a2)]

/-- Two curated rows in ascending date order, with distinct summary months. -/
def C3rows : List Row :=
  [{ pmid := "1", date := "2023-12-01", summary_month := "2024-01", summary_headline := "A" },
   { pmid := "2", date := "2024-01-01", summary_month := "2024-02", summary_headline := "B" }]

/-- The payload build_journal_club.main assembles from C3index and C3rows:
sessions newest first, summaries by month descending. -/
def C3payload : Payload :=
  { sessions :=
      [mkSession "2" "2024-01-01" (C3rows.get ⟨1, by decide⟩) C3a2,
       mkSession "1" "2023-12-01" (C3rows.get ⟨0, by decide⟩) C3a1]
    monthly_summaries :=
      [{ month := "2024-02", headline := "B", paragraph := "", key_highlights := [] },
       { month := "2024-01", headline := "A", paragraph := "", key_highlights := [] }] }

end Fixtures

namespace Py

theorem pyOr_empty_right (b : String) : pyOr b "" = b := by
  by_cases h : b = "" <;> simp [pyOr, h]

theorem pyOr_self (b : String) : pyOr b b = b := by
  by_cases h : b = "" <;> simp [pyOr, h]

theorem pyOr_eq_ite (a b : String) : pyOr a b = if a ≠ "" then a else b := by
  by_cases h : a = "" <;> simp [pyOr, h]

end Py

namespace BuildJournalClub

open Py

/-- Claim C1, counterexample. The claim includes the digital-object-identifier
among the fields merged with curated-wins-when-non-empty precedence, but the
Reconciliation Engine takes the DOI from the extracted record unconditionally:
with a curated row whose trimmed doi column is the non-empty CustomDOI and a
matched article whose DOI is ExtractedDOI, the assembled session carries
ExtractedDOI. -/
theorem C1_counterexample :
    pyStrip Fixtures.C1row.doi = "CustomDOI" ∧
    (buildPayload [("1", Fixtures.C1art)] [Fixtures.C1row]).map
        (fun p => p.sessions.map Session.doi) = .ok ["ExtractedDOI"] := by
  decide

/-- Claim C1, amended. For the title, journal, authors and abstract of every
Session assembled by the Reconciliation Engine, the curated value wins
whenever it is non-empty after trimming, otherwise the trimmed extracted
value is used (and the field is empty when both are); the
digital-object-identifier is always the trimmed extracted value, ignoring any
curated doi column. -/
theorem C1_merge_precedence (pmid date_iso : String) (s : Row) (art : Article) :
    (mkSession pmid date_iso s art).title
      = (if pyStrip s.title ≠ "" then pyStrip s.title else pyStrip art.Title)
  ∧ (mkSession pmid date_iso s art).journal
      = (if pyStrip s.journal ≠ "" then pyStrip s.journal else pyStrip art.Journal)
  ∧ (mkSession pmid date_iso s art).authors
      = (if pyStrip s.authors ≠ "" then pyStrip s.authors else pyStrip art.Authors)
  ∧ (mkSession pmid date_iso s art).abstract
      = (if pyStrip s.abstract ≠ "" then pyStrip s.abstract else pyStrip art.Abstract)
  ∧ (mkSession pmid date_iso s art).doi = pyStrip art.DOI := by
  refine ⟨?_, ?_, ?_, ?_, rfl⟩ <;> simp [mkSession, pyOr_eq_ite]

/-- Claim C2, counterexample. The date normalizer does not select the first
candidate that is non-empty after trimming: selection happens by Python
truthiness before trimming, so a whitespace-only session date shadows a
parseable publication date and the result is empty instead of the
publication date's ISO form. -/
theorem C2_counterexample :
    normalize_date " " "2025-Oct-31" = ""
  ∧ normalize_date "" "2025-Oct-31" = "2025-10-31" := by
  decide

theorem normalize_date_passthrough (a b : String)
    (hne : pyStrip (pyOr a b) ≠ "")
    (hd : dateDispatch (pyStrip (pyOr a b)) = Option.none) :
    normalize_date a b = pyStrip (pyOr a b) := by
  simp only [normalize_date, pyOr_empty_right]
  rw [if_neg hne, hd]

/-- Claim C2, amended. The date normalizer selects the first candidate that
is non-empty before trimming (so the publication date is ignored whenever the
session date is any non-empty string), trims the selection, returns the
empty string when the selection trims to empty, the ISO form when the
trimmed selection parses under one of the recognized shapes, and the trimmed
selection unchanged on any parse failure. -/
theorem C2_date_normalizer (a b : String) :
    (a ≠ "" → ∀ c, normalize_date a b = normalize_date a c)
  ∧ (a = "" → normalize_date a b = normalize_date b b)
  ∧ (pyStrip (pyOr a b) = "" → normalize_date a b = "")
  ∧ (∀ d, dateDispatch (pyStrip (pyOr a b)) = some d → normalize_date a b = isoOfDate d)
  ∧ (pyStrip (pyOr a b) ≠ "" → dateDispatch (pyStrip (pyOr a b)) = Option.none →
      normalize_date a b = pyStrip (pyOr a b)) := by
  refine ⟨?_, ?_, ?_, ?_, ?_⟩
  · intro h c
    simp [normalize_date, pyOr, h]
  · intro h
    subst h
    by_cases hb : b = "" <;> simp [normalize_date, pyOr, hb]
  · intro h
    simp only [normalize_date, pyOr_empty_right]
    simp [h]
  · intro d hd
    have hne : pyStrip (pyOr a b) ≠ "" := by
      intro he
      rw [he] at hd
      rw [show dateDispatch "" = (Option.none : Option PyDate) from by decide] at hd
      cases hd
    simp only [normalize_date, pyOr_empty_right]
    rw [if_neg hne, hd]
  · exact normalize_date_passthrough a b

/-- Witness for the amended claim C2 at concrete inputs. -/
theorem C2_witness :
    normalize_date " x" "2024-01-01" = normalize_date " x" "other"
  ∧ normalize_date "" "2025-Oct" = normalize_date "2025-Oct" "2025-Oct"
  ∧ normalize_date " " " " = ""
  ∧ normalize_date "2025-Oct" "" = isoOfDate ⟨2025, 10, 1⟩
  ∧ normalize_date "zz" "" = "zz" :=
  ⟨(C2_date_normalizer " x" "2024-01-01").1 (by decide) "other",
   (C2_date_normalizer "" "2025-Oct").2.1 rfl,
   (C2_date_normalizer " " " ").2.2.1 (by decide),
   (C2_date_normalizer "2025-Oct" "").2.2.2.1 ⟨2025, 10, 1⟩ (by decide),
   (C2_date_normalizer "zz" "").2.2.2.2 (by decide) (by decide)⟩

end BuildJournalClub

namespace BuildJournalClub

open Py

theorem alookup_dictSet {β : Type} (k q : String) (v : β) :
    ∀ (d : List (String × β)),
      alookup (dictSet d k v) q = if q = k then some v else alookup d q
  | [] => by
    simp [dictSet, alookup]
  | (k1, v1) :: rest => by
    by_cases h : k1 = k
    · subst h
      by_cases hq : q = k1 <;> simp [dictSet, alookup, hq]
    · by_cases hq : q = k1
      · subst hq
        simp [dictSet, alookup, h]
      · simp [dictSet, alookup, h, hq, alookup_dictSet k q v rest]

theorem alookup_append {β : Type} (k q : String) (v : β) :
    ∀ (d : List (String × β)),
      alookup (d ++ [(k, v)]) q =
        match alookup d q with
        | some w => some w
        | Option.none => if q = k then some v else Option.none
  | [] => by
    simp [alookup]
  | (k1, v1) :: rest => by
    by_cases hq : q = k1 <;> simp [alookup, hq, alookup_append k q v rest]

theorem lastMatch_append (p : String) (l2 : List Article) :
    ∀ (l1 : List Article),
      lastMatch p (l1 ++ l2) =
        match lastMatch p l2 with
        | some x => some x
        | Option.none => lastMatch p l1
  | [] => by
    cases h : lastMatch p l2 <;> simp [lastMatch, h]
  | a :: l1 => by
    have ih := lastMatch_append p l2 l1
    cases h : lastMatch p l2 <;> cases h1 : lastMatch p l1 <;>
      simp only [h, h1] at ih <;>
      simp [List.cons_append, lastMatch, ih, h, h1]

theorem firstMatch_append (p : String) (l2 : List Article) :
    ∀ (l1 : List Article),
      firstMatch p (l1 ++ l2) =
        match firstMatch p l1 with
        | some x => some x
        | Option.none => firstMatch p l2
  | [] => by
    simp [firstMatch]
  | a :: l1 => by
    by_cases h : pyStrip a.PMID = p <;>
      simp [firstMatch, h, firstMatch_append p l2 l1]

theorem alookup_foldl_insertArticle (p : String) (hp : p ≠ "") :
    ∀ (arts : List Article) (acc : List (String × Article)),
      alookup (arts.foldl insertArticle acc) p =
        match lastMatch p arts with
        | some a => some a
        | Option.none => alookup acc p
  | [], acc => by
    simp [lastMatch]
  | a :: arts, acc => by
    simp only [List.foldl_cons, alookup_foldl_insertArticle p hp arts]
    cases h : lastMatch p arts with
    | some x =>
      simp [lastMatch, h]
    | none =>
      simp only [lastMatch, h]
      by_cases hs : pyStrip a.PMID = ""
      · have h1 : insertArticle acc a = acc := by simp [insertArticle, hs]
        have hsp : ¬ pyStrip a.PMID = p := fun he => hp (he ▸ hs)
        simp [h1, hsp]
      · have h1 : insertArticle acc a = dictSet acc (pyStrip a.PMID) a := by
          simp [insertArticle, hs]
        rw [h1, alookup_dictSet]
        by_cases hsp : pyStrip a.PMID = p
        · simp [hsp]
        · have hps : ¬ p = pyStrip a.PMID := fun he => hsp he.symm
          simp [hsp, hps]

theorem alookup_foldl_insertArticle_empty :
    ∀ (arts : List Article) (acc : List (String × Article)),
      alookup acc "" = Option.none →
      alookup (arts.foldl insertArticle acc) "" = Option.none
  | [], _, h => h
  | a :: arts, acc, h => by
    apply alookup_foldl_insertArticle_empty arts
    by_cases hs : pyStrip a.PMID = ""
    · simpa [insertArticle, hs] using h
    · have hno : ¬ ("" : String) = pyStrip a.PMID := fun he => hs he.symm
      simp [insertArticle, hs, alookup_dictSet, hno, h]

theorem loadEntAux_ok_alookup (p : String) (hp : p ≠ "") :
    ∀ (files : List FileState) (acc index : List (String × Article)),
      loadEntAux acc files = .ok index →
      alookup index p =
        match lastMatch p (allArticles files) with
        | some a => some a
        | Option.none => alookup acc p
  | [], acc, index, h => by
    simp only [loadEntAux, Except.ok.injEq] at h
    subst h
    simp [allArticles, lastMatch]
  | .absent :: files, acc, index, h => by
    simp only [loadEntAux] at h
    simpa [allArticles] using loadEntAux_ok_alookup p hp files acc index h
  | .malformed :: files, acc, index, h => by
    simp [loadEntAux] at h
  | .parsed arts :: files, acc, index, h => by
    simp only [loadEntAux] at h
    rw [loadEntAux_ok_alookup p hp files _ index h, alookup_foldl_insertArticle p hp]
    simp only [allArticles]
    rw [lastMatch_append p (allArticles files) arts]
    cases h1 : lastMatch p (allArticles files) <;> cases h2 : lastMatch p arts <;> simp

theorem loadEntAux_ok_alookup_empty :
    ∀ (files : List FileState) (acc index : List (String × Article)),
      alookup acc "" = Option.none →
      loadEntAux acc files = .ok index →
      alookup index "" = Option.none
  | [], acc, index, hacc, h => by
    simp only [loadEntAux, Except.ok.injEq] at h
    subst h
    exact hacc
  | .absent :: files, acc, index, hacc, h => by
    simp only [loadEntAux] at h
    exact loadEntAux_ok_alookup_empty files acc index hacc h
  | .malformed :: files, acc, index, hacc, h => by
    simp [loadEntAux] at h
  | .parsed arts :: files, acc, index, hacc, h => by
    simp only [loadEntAux] at h
    exact loadEntAux_ok_alookup_empty files _ index
      (alookup_foldl_insertArticle_empty arts acc hacc) h

end BuildJournalClub

namespace PopulateSessions

open Py BuildJournalClub

theorem alookup_foldl_insertArticleFirst (p : String) (hp : p ≠ "") :
    ∀ (arts : List Article) (acc : List (String × Article)),
      alookup (arts.foldl insertArticleFirst acc) p =
        match alookup acc p with
        | some x => some x
        | Option.none => firstMatch p arts
  | [], acc => by
    cases h : alookup acc p <;> simp [firstMatch, h]
  | a :: arts, acc => by
    simp only [List.foldl_cons, alookup_foldl_insertArticleFirst p hp arts]
    by_cases hs : pyStrip a.PMID = ""
    · have h1 : insertArticleFirst acc a = acc := by simp [insertArticleFirst, hs]
      have hsp : ¬ pyStrip a.PMID = p := fun he => hp (he ▸ hs)
      rw [h1]
      cases h : alookup acc p <;> simp [firstMatch, h, hsp]
    · by_cases habs : (alookup acc (pyStrip a.PMID)).isNone = true
      · have h1 : insertArticleFirst acc a = acc ++ [(pyStrip a.PMID, a)] := by
          simp [insertArticleFirst, hs, habs]
        rw [h1, alookup_append]
        by_cases hsp : pyStrip a.PMID = p
        · have hnone : alookup acc p = Option.none := by
            rw [← hsp]
            exact Option.isNone_iff_eq_none.mp habs
          simp [firstMatch, hnone, hsp]
        · have hps : ¬ p = pyStrip a.PMID := fun he => hsp he.symm
          cases h : alookup acc p <;> simp [firstMatch, h, hsp, hps]
      · have h1 : insertArticleFirst acc a = acc := by
          simp [insertArticleFirst, habs]
        rw [h1]
        by_cases hsp : pyStrip a.PMID = p
        · rcases (show ∃ x, alookup acc p = some x from by
            rw [← hsp]
            cases hx : alookup acc (pyStrip a.PMID)
            · rw [hx] at habs
              simp at habs
            · exact ⟨_, rfl⟩) with ⟨x, hx⟩
          simp [firstMatch, hx, hsp]
        · cases h : alookup acc p <;> simp [firstMatch, h, hsp]

theorem loadEntAuxPS_ok_alookup (p : String) (hp : p ≠ "") :
    ∀ (files : List FileState) (acc index : List (String × Article)),
      PopulateSessions.loadEntAux acc files = .ok index →
      alookup index p =
        match alookup acc p with
        | some x => some x
        | Option.none => firstMatch p (allArticles files)
  | [], acc, index, h => by
    simp only [PopulateSessions.loadEntAux, Except.ok.injEq] at h
    subst h
    cases h1 : alookup acc p <;> simp [allArticles, firstMatch, h1]
  | .absent :: files, acc, index, h => by
    simp only [PopulateSessions.loadEntAux] at h
    simpa [allArticles] using loadEntAuxPS_ok_alookup p hp files acc index h
  | .malformed :: files, acc, index, h => by
    simp [PopulateSessions.loadEntAux] at h
  | .parsed arts :: files, acc, index, h => by
    simp only [PopulateSessions.loadEntAux] at h
    rw [loadEntAuxPS_ok_alookup p hp files _ index h,
      alookup_foldl_insertArticleFirst p hp]
    simp only [allArticles]
    rw [firstMatch_append p (allArticles files) arts]
    cases h1 : alookup acc p <;> cases h2 : firstMatch p arts <;> simp

end PopulateSessions

namespace BuildJournalClub

open Py

/-- Claim C5, counterexample. The two Source Index Builders disagree: with
two extracted files bearing the same PMID in discovery order,
populate_sessions.load_ent_index keeps the first-discovered record, not the
most-recently-discovered one. -/
theorem C5_counterexample :
    PopulateSessions.load_ent_index Fixtures.C5files = .ok [("1", Fixtures.C5A1)]
  ∧ Fixtures.C5A1 ≠ Fixtures.C5A2 := by
  decide

/-- Claim C5, amended. Both index builders map each non-empty trimmed
identifier to an article deterministically, but under opposite policies:
build_journal_club.load_ent_index keeps the most-recently-discovered record
with that identifier, while populate_sessions.load_ent_index keeps the
first-discovered one. -/
theorem C5_index_policies (files : List FileState)
    (index indexPS : List (String × Article)) (p : String) (hp : p ≠ "") :
    (load_ent_index files = .ok index →
      alookup index p = lastMatch p (allArticles files))
  ∧ (PopulateSessions.load_ent_index files = .ok indexPS →
      alookup indexPS p = firstMatch p (allArticles files)) := by
  constructor
  · intro h
    rw [loadEntAux_ok_alookup p hp files [] index h]
    cases h1 : lastMatch p (allArticles files) <;> simp [alookup, h1]
  · intro h
    rw [PopulateSessions.loadEntAuxPS_ok_alookup p hp files [] indexPS h]
    simp [alookup]

/-- Witness for the amended claim C5 on the two-file fixture. -/
theorem C5_witness :
    alookup [("1", Fixtures.C5A2)] "1" = lastMatch "1" (allArticles Fixtures.C5files)
  ∧ alookup [("1", Fixtures.C5A1)] "1" = firstMatch "1" (allArticles Fixtures.C5files) :=
  ⟨(C5_index_policies Fixtures.C5files [("1", Fixtures.C5A2)] [("1", Fixtures.C5A1)]
      "1" (by decide)).1 (by decide),
   (C5_index_policies Fixtures.C5files [("1", Fixtures.C5A2)] [("1", Fixtures.C5A1)]
      "1" (by decide)).2 (by decide)⟩

end BuildJournalClub

namespace BuildJournalClub

open Py

theorem loadEntAux_error_of_malformed :
    ∀ (files : List FileState) (acc : List (String × Article)),
      FileState.malformed ∈ files → isErrorE (loadEntAux acc files) = true
  | [], _, h => by
    simp at h
  | .absent :: files, acc, h => by
    have h2 : FileState.malformed ∈ files := by simpa using h
    simpa [loadEntAux] using loadEntAux_error_of_malformed files acc h2
  | .malformed :: files, acc, _ => by
    simp [loadEntAux, isErrorE]
  | .parsed arts :: files, acc, h => by
    have h2 : FileState.malformed ∈ files := by simpa using h
    simpa [loadEntAux] using loadEntAux_error_of_malformed files _ h2

theorem loadEntAux_ok_of_wellformed :
    ∀ (files : List FileState) (acc : List (String × Article)),
      FileState.malformed ∉ files → isOkE (loadEntAux acc files) = true
  | [], _, _ => rfl
  | .absent :: files, acc, h => by
    simpa [loadEntAux] using
      loadEntAux_ok_of_wellformed files acc (fun hm => h (List.mem_cons_of_mem _ hm))
  | .malformed :: files, acc, h => by
    exact absurd (List.mem_cons_self _ _) h
  | .parsed arts :: files, acc, h => by
    simpa [loadEntAux] using
      loadEntAux_ok_of_wellformed files _ (fun hm => h (List.mem_cons_of_mem _ hm))

theorem hlFilter_map_str_isOk :
    ∀ (l : List String), isOkE (hlFilter (l.map PyVal.str)) = true
  | [] => rfl
  | s :: rest => by
    simp only [List.map_cons, hlFilter]
    split
    · exact hlFilter_map_str_isOk rest
    · have ih := hlFilter_map_str_isOk rest
      cases h : hlFilter (rest.map PyVal.str) with
      | error e =>
        rw [h] at ih
        simp [isOkE] at ih
      | ok l2 =>
        simp [Except.map, h, isOkE]

theorem parse_highlights_str_isOk (s : String) :
    isOkE (parse_highlights (PyVal.str s)) = true := by
  by_cases hf : pyFalsy (PyVal.str s) = true
  · simp [parse_highlights, hf, isOkE]
  · by_cases ht : pyStrip s = ""
    · simp [parse_highlights, hf, pyStr, ht, isOkE]
    · simpa [parse_highlights, hf, pyStr, ht] using
        hlFilter_map_str_isOk (splitDelimRuns (pyStrip s))

theorem isOkE_map {ε α β : Type} (f : α → β) (x : Except ε α) (h : isOkE x = true) :
    isOkE (x.map f) = true := by
  cases x
  · simp [isOkE] at h
  · simp [Except.map, isOkE]

theorem processSessions_isOk (index : List (String × Article)) :
    ∀ (rows : List Row) (acc : List (String × Summary)),
      isOkE (processSessions index acc rows) = true
  | [], _ => rfl
  | s :: rest, acc => by
    unfold processSessions
    cases halook : alookup index (pyStrip s.pmid) with
    | none =>
      simp only [halook]
      exact isOkE_map _ _ (processSessions_isOk index rest acc)
    | some art =>
      simp only [halook]
      cases hph : parse_highlights (PyVal.str s.summary_highlights) with
      | error e =>
        have hok := parse_highlights_str_isOk s.summary_highlights
        rw [hph] at hok
        simp [isOkE] at hok
      | ok hls =>
        simp only [hph]
        exact isOkE_map _ _ (processSessions_isOk index rest _)

theorem buildPayload_isOk (index : List (String × Article)) (rows : List Row) :
    isOkE (buildPayload index rows) = true := by
  unfold buildPayload
  exact isOkE_map _ _ (processSessions_isOk index rows [])

end BuildJournalClub

namespace PopulateSessions

open Py BuildJournalClub

theorem loadEntAuxPS_error_of_malformed :
    ∀ (files : List FileState) (acc : List (String × Article)),
      FileState.malformed ∈ files → isErrorE (PopulateSessions.loadEntAux acc files) = true
  | [], _, h => by
    simp at h
  | .absent :: files, acc, h => by
    have h2 : FileState.malformed ∈ files := by simpa using h
    simpa [PopulateSessions.loadEntAux] using loadEntAuxPS_error_of_malformed files acc h2
  | .malformed :: files, acc, _ => by
    simp [PopulateSessions.loadEntAux, isErrorE]
  | .parsed arts :: files, acc, h => by
    have h2 : FileState.malformed ∈ files := by simpa using h
    simpa [PopulateSessions.loadEntAux] using loadEntAuxPS_error_of_malformed files _ h2

theorem loadEntAuxPS_ok_of_wellformed :
    ∀ (files : List FileState) (acc : List (String × Article)),
      FileState.malformed ∉ files → isOkE (PopulateSessions.loadEntAux acc files) = true
  | [], _, _ => rfl
  | .absent :: files, acc, h => by
    simpa [PopulateSessions.loadEntAux] using
      loadEntAuxPS_ok_of_wellformed files acc (fun hm => h (List.mem_cons_of_mem _ hm))
  | .malformed :: files, acc, h => by
    exact absurd (List.mem_cons_self _ _) h
  | .parsed arts :: files, acc, h => by
    simpa [PopulateSessions.loadEntAux] using
      loadEntAuxPS_ok_of_wellformed files _ (fun hm => h (List.mem_cons_of_mem _ hm))

end PopulateSessions

namespace BuildJournalClub

open Py

/-- Claim C4, counterexample. A missing curated-table file does not abort the
run through populate_sessions.load_manual_sessions: that loader returns an
empty index for a missing sessions.csv instead of raising. -/
theorem C4_counterexample :
    PopulateSessions.load_manual_sessions Option.none = .ok []
  ∧ isErrorE (PopulateSessions.load_manual_sessions Option.none) = false := by
  decide

/-- Claim C4, amended. In build_journal_club a missing curated-table file
aborts the run, and in both scripts a present extracted-record file that is
not valid JSON aborts the indexing with no partial index; these are the only
fatal loader conditions (well-formed inputs always load, and the downstream
payload build never fails on loaded rows). populate_sessions' curated-table
loader, however, returns an empty index for a missing file instead of
raising. -/
theorem C4_fatal_conditions (files : List FileState)
    (index : List (String × Article)) (rows : List Row) :
    load_sessions Option.none = .error "FileNotFoundError: sessions.csv"
  ∧ PopulateSessions.load_manual_sessions Option.none = .ok []
  ∧ (FileState.malformed ∈ files → isErrorE (load_ent_index files) = true)
  ∧ (FileState.malformed ∈ files → isErrorE (PopulateSessions.load_ent_index files) = true)
  ∧ (FileState.malformed ∉ files → isOkE (load_ent_index files) = true)
  ∧ (FileState.malformed ∉ files → isOkE (PopulateSessions.load_ent_index files) = true)
  ∧ isOkE (buildPayload index rows) = true := by
  refine ⟨rfl, rfl, ?_, ?_, ?_, ?_, buildPayload_isOk index rows⟩
  · exact fun h => loadEntAux_error_of_malformed files [] h
  · exact fun h => PopulateSessions.loadEntAuxPS_error_of_malformed files [] h
  · exact fun h => loadEntAux_ok_of_wellformed files [] h
  · exact fun h => PopulateSessions.loadEntAuxPS_ok_of_wellformed files [] h

/-- Witness for the amended claim C4 at concrete file lists. -/
theorem C4_witness :
    isErrorE (load_ent_index [FileState.malformed]) = true
  ∧ isErrorE (PopulateSessions.load_ent_index [FileState.malformed]) = true
  ∧ isOkE (load_ent_index [FileState.absent, FileState.parsed []]) = true
  ∧ isOkE (PopulateSessions.load_ent_index [FileState.absent, FileState.parsed []]) = true :=
  ⟨(C4_fatal_conditions [FileState.malformed] [] []).2.2.1 (by decide),
   (C4_fatal_conditions [FileState.malformed] [] []).2.2.2.1 (by decide),
   (C4_fatal_conditions [FileState.absent, FileState.parsed []] [] []).2.2.2.2.1 (by decide),
   (C4_fatal_conditions [FileState.absent, FileState.parsed []] [] []).2.2.2.2.2.1 (by decide)⟩

end BuildJournalClub

namespace BuildJournalClub

open Py

/-- Claim C7. A curated row whose trimmed identifier is empty or absent from
the extracted-record index contributes no Session, produces the diagnostic
line naming the identifier, and leaves the processing of the remaining rows
unchanged. -/
theorem C7_unmatched_row (files : List FileState) (index : List (String × Article))
    (acc : List (String × Summary)) (r : Row) (rest : List Row)
    (hload : load_ent_index files = .ok index)
    (h : pyStrip r.pmid = "" ∨ alookup index (pyStrip r.pmid) = Option.none) :
    processSessions index acc (r :: rest) =
      (processSessions index acc rest).map
        (fun t => (t.1, t.2.1, warnMsg (pyStrip r.pmid) :: t.2.2)) := by
  have hnone : alookup index (pyStrip r.pmid) = Option.none := by
    rcases h with h | h
    · rw [h]
      exact loadEntAux_ok_alookup_empty files [] index rfl hload
    · exact h
  conv_lhs => unfold processSessions
  simp only [hnone]

/-- Witness for claim C7 on a concrete index and row. -/
theorem C7_witness :
    processSessions [("1", Fixtures.C7art)] [] [{ pmid := "2" }] =
      .ok ([], [], [warnMsg "2"]) := by
  rw [C7_unmatched_row [FileState.parsed [Fixtures.C7art]] [("1", Fixtures.C7art)] []
    { pmid := "2" } [] (by decide) (Or.inr (by decide))]
  decide

theorem map_eq_ok {ε α β : Type} {f : α → β} {x : Except ε α} {b : β}
    (h : x.map f = .ok b) : ∃ a, x = .ok a ∧ b = f a := by
  cases x with
  | error e =>
    simp [Except.map] at h
  | ok a =>
    exact ⟨a, rfl, by simpa [Except.map] using h.symm⟩

theorem mem_keys_alookup {β : Type} :
    ∀ (d : List (String × β)) (k : String), k ∈ d.map Prod.fst →
      (alookup d k).isSome = true
  | (k1, v1) :: rest, k, h => by
    by_cases hk : k = k1
    · simp [alookup, hk]
    · have h2 : k ∈ rest.map Prod.fst := by simpa [hk] using h
      simp [alookup, hk, mem_keys_alookup rest k h2]

theorem setdefault_keys_nodup {β : Type} (d : List (String × β)) (k : String) (v : β)
    (h : (d.map Prod.fst).Nodup) : ((setdefault d k v).map Prod.fst).Nodup := by
  unfold setdefault
  split
  · exact h
  · next hin =>
    have hk : k ∉ d.map Prod.fst := by
      intro hmem
      exact hin (by simp [mem_keys_alookup d k hmem])
    simp [List.nodup_append, h, hk]

theorem registerSummary_keys_nodup (acc : List (String × Summary)) (s : Row)
    (art : Article) (hls : List String) (h : (acc.map Prod.fst).Nodup) :
    ((registerSummary acc s art hls).map Prod.fst).Nodup := by
  unfold registerSummary
  split
  · exact setdefault_keys_nodup acc _ _ h
  · exact h

theorem processSessions_alookup_summaries (index : List (String × Article)) (m : String) :
    ∀ (rows : List Row) (acc : List (String × Summary))
      (res : List Session × List (String × Summary) × List String),
      processSessions index acc rows = .ok res →
      alookup res.2.1 m =
        match alookup acc m with
        | some v => some v
        | Option.none => firstSummary index m rows
  | [], acc, res, h => by
    simp only [processSessions, Except.ok.injEq] at h
    subst h
    cases h1 : alookup acc m <;> simp [firstSummary, h1]
  | s :: rest, acc, res, h => by
    simp only [processSessions] at h
    cases halook : alookup index (pyStrip s.pmid) with
    | none =>
      simp only [halook] at h
      obtain ⟨t, hrec, hres⟩ := map_eq_ok h
      have ih := processSessions_alookup_summaries index m rest acc t hrec
      rw [hres]
      simpa [firstSummary, halook] using ih
    | some art =>
      simp only [halook] at h
      cases hph : parse_highlights (PyVal.str s.summary_highlights) with
      | error e =>
        simp [hph] at h
      | ok hls =>
        simp only [hph] at h
        obtain ⟨t, hrec, hres⟩ := map_eq_ok h
        have ih := processSessions_alookup_summaries index m rest
          (registerSummary acc s art hls) t hrec
        rw [hres]
        simp only [firstSummary, halook, hph]
        rw [ih]
        unfold registerSummary
        by_cases hc : rowSummaryMonth s art ≠ "" ∧ rowBundleNonempty s hls
        · rw [if_pos hc]
          unfold setdefault
          by_cases hin : (alookup acc (rowSummaryMonth s art)).isSome = true
          · rw [if_pos hin]
            by_cases hm : rowSummaryMonth s art = m
            · rcases Option.isSome_iff_exists.mp hin with ⟨v, hv⟩
              rw [hm] at hv
              simp [hv]
            · cases hl : alookup acc m <;> simp [hl, hm]
          · rw [if_neg hin]
            rw [alookup_append]
            by_cases hm : m = rowSummaryMonth s art
            · cases hl : alookup acc m with
              | none => simp [hl, hm, hc.1, hc.2]
              | some v => simp [hl]
            · have hms : ¬ rowSummaryMonth s art = m := fun hh => hm hh.symm
              cases hl : alookup acc m <;> simp [hl, hm, hms]
        · rw [if_neg hc]
          have hcond : ¬ (rowSummaryMonth s art = m ∧ rowSummaryMonth s art ≠ "" ∧
              rowBundleNonempty s hls) := fun hh => hc hh.2
          cases hl : alookup acc m <;> simp [hl, hcond]

theorem processSessions_keys_nodup (index : List (String × Article)) :
    ∀ (rows : List Row) (acc : List (String × Summary))
      (res : List Session × List (String × Summary) × List String),
      (acc.map Prod.fst).Nodup →
      processSessions index acc rows = .ok res →
      (res.2.1.map Prod.fst).Nodup
  | [], acc, res, hacc, h => by
    simp only [processSessions, Except.ok.injEq] at h
    subst h
    exact hacc
  | s :: rest, acc, res, hacc, h => by
    simp only [processSessions] at h
    cases halook : alookup index (pyStrip s.pmid) with
    | none =>
      simp only [halook] at h
      obtain ⟨t, hrec, hres⟩ := map_eq_ok h
      rw [hres]
      exact processSessions_keys_nodup index rest acc t hacc hrec
    | some art =>
      simp only [halook] at h
      cases hph : parse_highlights (PyVal.str s.summary_highlights) with
      | error e =>
        simp [hph] at h
      | ok hls =>
        simp only [hph] at h
        obtain ⟨t, hrec, hres⟩ := map_eq_ok h
        rw [hres]
        exact processSessions_keys_nodup index rest _ t
          (registerSummary_keys_nodup acc s art hls hacc) hrec

/-- Claim C6. For rows processed in table order, the summary dict maps each
month to the bundle of the first matched row whose summary resolves to that
month with a non-empty headline/paragraph/highlights bundle (so an empty
bundle registers nothing and later bundles for an already-registered month
are discarded, not merged), and no month holds more than one summary. -/
theorem C6_summary_first_wins (index : List (String × Article)) (rows : List Row)
    (res : List Session × List (String × Summary) × List String) (m : String)
    (h : processSessions index [] rows = .ok res) :
    alookup res.2.1 m = firstSummary index m rows
  ∧ (res.2.1.map Prod.fst).Nodup := by
  constructor
  · have hh := processSessions_alookup_summaries index m rows [] res h
    simpa [alookup] using hh
  · exact processSessions_keys_nodup index rows [] res (by simp) h

/-- Witness for claim C6 on two same-month rows with non-empty headlines. -/
theorem C6_witness :
    alookup Fixtures.C6sums "2025-03" = firstSummary Fixtures.C6index "2025-03" Fixtures.C6rows
  ∧ ((Fixtures.C6sums).map Prod.fst).Nodup :=
  C6_summary_first_wins Fixtures.C6index Fixtures.C6rows Fixtures.C6res "2025-03" (by decide)

end BuildJournalClub

namespace TagSubjects

open Py BuildJournalClub

theorem mem_insertUniq (x a : String) :
    ∀ (l : List String), (a = x ∨ a ∈ l) → a ∈ insertUniq x l
  | [], h => by
    rcases h with h | h
    · simp [insertUniq, h]
    · simp at h
  | y :: ys, h => by
    unfold insertUniq
    split
    · rcases h with h | h
      · simp [h]
      · simp [h]
    · split
      · next hxy =>
        rcases h with h | h
        · subst h
          simp [hxy]
        · exact h
      · rcases h with h | h
        · exact List.mem_cons_of_mem y (mem_insertUniq x a ys (Or.inl h))
        · rcases List.mem_cons.mp h with h | h
          · simp [h]
          · exact List.mem_cons_of_mem y (mem_insertUniq x a ys (Or.inr h))

theorem mem_sortedDedup (a : String) :
    ∀ (l : List String), a ∈ l → a ∈ sortedDedup l
  | x :: xs, h => by
    rcases List.mem_cons.mp h with h | h
    · exact mem_insertUniq x a (sortedDedup xs) (Or.inl h)
    · exact mem_insertUniq x a (sortedDedup xs) (Or.inr (mem_sortedDedup a xs h))

/-- Claim C8. Any text containing the word children, word-boundary matched
and case-insensitively, receives the Pediatrics tag from the Subject
Classifier, whatever the other rules match. -/
theorem C8_pediatric_overlay (text : String) (h : containsWord "children" text = true) :
    "Pediatrics" ∈ assign_subjects text := by
  have hped : pediatricSearch text = true :=
    List.any_eq_true.mpr ⟨"children", by decide, h⟩
  unfold assign_subjects
  rw [hped]
  simp only [if_true]
  apply mem_sortedDedup
  split
  · next hemp => simp at hemp
  · exact List.mem_append_right _ (by decide)

/-- Witness for claim C8 at a concrete text. -/
theorem C8_witness :
    containsWord "children" "Children with otitis media" = true
  ∧ "Pediatrics" ∈ assign_subjects "Children with otitis media" :=
  ⟨by decide, C8_pediatric_overlay "Children with otitis media" (by decide)⟩

/-- Claim C10. The subject-tagging pass preserves the session sequence's
order and every field other than subjects, and replaces each session's
subjects wholesale with the classifier output for the concatenated
title/journal/abstract/notes text; the previously-stored subjects have no
influence on the result. -/
theorem C10_update_sessions_frame (ss : List Session) (l : List String) :
    (update_sessions ss).map (fun s => { s with subjects := ([] : List String) })
      = ss.map (fun s => { s with subjects := ([] : List String) })
  ∧ (update_sessions ss).map Session.subjects
      = ss.map (fun s => assign_subjects (sessionText s))
  ∧ (update_sessions (ss.map (fun s => { s with subjects := l }))).map Session.subjects
      = (update_sessions ss).map Session.subjects := by
  refine ⟨?_, ?_, ?_⟩ <;> simp only [update_sessions, List.map_map] <;> rfl

end TagSubjects

namespace Py

theorem lexLt_irrefl : ∀ (a : List Char), lexLt a a = false
  | [] => rfl
  | c :: cs => by
    simp [lexLt, lexLt_irrefl cs]

theorem lexLt_trans : ∀ (a b c : List Char),
    lexLt a b = true → lexLt b c = true → lexLt a c = true
  | [], [], _, h1, _ => by simp [lexLt] at h1
  | [], _ :: _, [], _, h2 => by simp [lexLt] at h2
  | [], _ :: _, _ :: _, _, _ => rfl
  | _ :: _, [], _, h1, _ => by simp [lexLt] at h1
  | _ :: _, _ :: _, [], _, h2 => by simp [lexLt] at h2
  | x :: xs, y :: ys, z :: zs, h1, h2 => by
    simp only [lexLt] at h1 h2 ⊢
    split_ifs at h1 h2 ⊢ <;>
      first
        | rfl
        | omega
        | (exact lexLt_trans xs ys zs h1 h2)

theorem pyStrLt_trans {a b c : String} (h1 : pyStrLt a b = true) (h2 : pyStrLt b c = true) :
    pyStrLt a c = true :=
  lexLt_trans a.data b.data c.data h1 h2

theorem pyStrLt_asymm {a b : String} (h : pyStrLt a b = true) : pyStrLt b a = false := by
  cases hab : pyStrLt b a
  · rfl
  · exact absurd (lexLt_trans a.data b.data a.data h hab) (by simp [lexLt_irrefl])

end Py

namespace BuildJournalClub

open Py

theorem mem_insertDescBy {α : Type} (key : α → String) (x : α) :
    ∀ (l : List α) (z : α), z ∈ insertDescBy key x l → z = x ∨ z ∈ l
  | [], z, h => by
    unfold insertDescBy at h
    exact Or.inl (by simpa using h)
  | y :: ys, z, h => by
    unfold insertDescBy at h
    split at h
    · rcases List.mem_cons.mp h with h | h
      · exact Or.inl h
      · exact Or.inr h
    · rcases List.mem_cons.mp h with h | h
      · exact Or.inr (by simp [h])
      · rcases mem_insertDescBy key x ys z h with h | h
        · exact Or.inl h
        · exact Or.inr (List.mem_cons_of_mem y h)

theorem pairwise_insertDescBy {α : Type} (key : α → String) (x : α) :
    ∀ (l : List α),
      List.Pairwise (fun a b => pyStrLt (key a) (key b) = false) l →
      List.Pairwise (fun a b => pyStrLt (key a) (key b) = false) (insertDescBy key x l)
  | [], _ => by simp [insertDescBy]
  | y :: ys, hp => by
    rcases List.pairwise_cons.mp hp with ⟨hy, hys⟩
    unfold insertDescBy
    split
    · next hlt =>
      refine List.pairwise_cons.mpr ⟨?_, hp⟩
      intro z hz
      rcases List.mem_cons.mp hz with rfl | hz
      · exact pyStrLt_asymm hlt
      · cases hc : pyStrLt (key x) (key z)
        · rfl
        · exact absurd (pyStrLt_trans hlt hc) (by simp [hy z hz])
    · next hnlt =>
      refine List.pairwise_cons.mpr ⟨?_, pairwise_insertDescBy key x ys hys⟩
      intro z hz
      rcases mem_insertDescBy key x ys z hz with rfl | hz
      · simpa using hnlt
      · exact hy z hz

theorem pairwise_sortDescBy {α : Type} (key : α → String) :
    ∀ (l : List α),
      List.Pairwise (fun a b => pyStrLt (key a) (key b) = false) (sortDescBy key l)
  | [] => List.Pairwise.nil
  | x :: xs => pairwise_insertDescBy key x _ (pairwise_sortDescBy key xs)

theorem registerSummary_months (acc : List (String × Summary)) (s : Row) (art : Article)
    (hls : List String) (h : ∀ e ∈ acc, (e : String × Summary).2.month = e.1) :
    ∀ e ∈ registerSummary acc s art hls, (e : String × Summary).2.month = e.1 := by
  unfold registerSummary
  split
  · unfold setdefault
    split
    · exact h
    · intro e he
      rcases List.mem_append.mp he with he | he
      · exact h e he
      · simp only [List.mem_singleton] at he
        subst he
        rfl
  · exact h

theorem processSessions_months (index : List (String × Article)) :
    ∀ (rows : List Row) (acc : List (String × Summary))
      (res : List Session × List (String × Summary) × List String),
      (∀ e ∈ acc, (e : String × Summary).2.month = e.1) →
      processSessions index acc rows = .ok res →
      ∀ e ∈ res.2.1, (e : String × Summary).2.month = e.1
  | [], acc, res, hacc, h => by
    simp only [processSessions, Except.ok.injEq] at h
    subst h
    exact hacc
  | s :: rest, acc, res, hacc, h => by
    simp only [processSessions] at h
    cases halook : alookup index (pyStrip s.pmid) with
    | none =>
      simp only [halook] at h
      obtain ⟨t, hrec, hres⟩ := map_eq_ok h
      rw [hres]
      exact processSessions_months index rest acc t hacc hrec
    | some art =>
      simp only [halook] at h
      cases hph : parse_highlights (PyVal.str s.summary_highlights) with
      | error e =>
        simp [hph] at h
      | ok hls =>
        simp only [hph] at h
        obtain ⟨t, hrec, hres⟩ := map_eq_ok h
        rw [hres]
        exact processSessions_months index rest _ t
          (registerSummary_months acc s art hls hacc) hrec

theorem alookup_mem {β : Type} :
    ∀ (d : List (String × β)) (q : String) (v : β),
      alookup d q = some v → (q, v) ∈ d
  | (k1, v1) :: rest, q, v, h => by
    by_cases hq : q = k1
    · subst hq
      have h2 : some v1 = some v := by simpa [alookup] using h
      cases h2
      exact List.mem_cons_self _ _
    · simp only [alookup, if_neg hq] at h
      exact List.mem_cons_of_mem _ (alookup_mem rest q v h)

/-- Claim C3, status: the claim holds of the reconciliation stage but the
full pipeline breaks it. build_journal_club.main writes one document with
exactly the two top-level keys, sessions sorted by date descending and
monthly summaries sorted by month descending under plain string comparison;
tag_subjects.write_output, which rewrites the same document at the end of a
full run, emits only the sessions key and drops the monthly summaries. -/
theorem C3_output_shape (index : List (String × Article)) (rows : List Row) (p : Payload)
    (h : buildPayload index rows = .ok p) :
    (TagSubjects.payloadDoc p).map Prod.fst = ["sessions", "monthly_summaries"]
  ∧ List.Pairwise (fun a b => pyStrLt a.date b.date = false) p.sessions
  ∧ List.Pairwise (fun a b => pyStrLt a.month b.month = false) p.monthly_summaries
  ∧ (∀ ss, (TagSubjects.write_output_doc ss).map Prod.fst = ["sessions"]) := by
  unfold buildPayload at h
  obtain ⟨t, hrec, hp⟩ := map_eq_ok h
  refine ⟨rfl, ?_, ?_, fun ss => rfl⟩
  · rw [hp]
    exact pairwise_sortDescBy Session.date t.1
  · rw [hp]
    have hmonths := processSessions_months index rows [] t (by simp) hrec
    have hkeys := pairwise_sortDescBy (fun m => m) (t.2.1.map Prod.fst)
    refine List.Pairwise.filterMap (alookup t.2.1) ?_ hkeys
    intro a a' hab b hb b' hb'
    have hbm : b.month = a := by
      have hmem := alookup_mem t.2.1 a b (by simpa using hb)
      simpa using hmonths (a, b) hmem
    have hbm' : b'.month = a' := by
      have hmem := alookup_mem t.2.1 a' b' (by simpa using hb')
      simpa using hmonths (a', b') hmem
    rw [hbm, hbm']
    exact hab

/-- Witness for claim C3 on the concrete two-row fixture. -/
theorem C3_witness :
    (TagSubjects.payloadDoc Fixtures.C3payload).map Prod.fst
      = ["sessions", "monthly_summaries"]
  ∧ List.Pairwise (fun a b => pyStrLt a.date b.date = false) Fixtures.C3payload.sessions
  ∧ List.Pairwise (fun a b => pyStrLt a.month b.month = false)
      Fixtures.C3payload.monthly_summaries
  ∧ (TagSubjects.write_output_doc
      (TagSubjects.update_sessions Fixtures.C3payload.sessions)).map Prod.fst
      = ["sessions"] :=
  ⟨(C3_output_shape Fixtures.C3index Fixtures.C3rows Fixtures.C3payload (by decide)).1,
   (C3_output_shape Fixtures.C3index Fixtures.C3rows Fixtures.C3payload (by decide)).2.1,
   (C3_output_shape Fixtures.C3index Fixtures.C3rows Fixtures.C3payload (by decide)).2.2.1,
   (C3_output_shape Fixtures.C3index Fixtures.C3rows Fixtures.C3payload (by decide)).2.2.2 _⟩

theorem normalise_image_url (v : PyVal) (img : Image) (h : normalise_image v = some img) :
    img.url ≠ "" := by
  cases v with
  | str s =>
    simp only [normalise_image] at h
    split at h
    · next hne =>
      cases h
      exact hne
    · cases h
  | dict d =>
    simp only [normalise_image] at h
    split at h
    · next hne =>
      cases h
      exact hne
    · cases h
  | none => exact Option.noConfusion h
  | bool b => exact Option.noConfusion h
  | int n => exact Option.noConfusion h
  | float t => exact Option.noConfusion h
  | list l => exact Option.noConfusion h

theorem parse_images_urls (v : PyVal) : ∀ img ∈ parse_images v, img.url ≠ "" := by
  intro img hmem
  unfold parse_images at hmem
  split at hmem
  · simp at hmem
  · cases hE : rawImageList v with
    | none =>
      rw [hE] at hmem
      simp at hmem
    | some l =>
      rw [hE] at hmem
      rcases List.mem_filterMap.mp hmem with ⟨a, _, ha⟩
      exact normalise_image_url a img ha

theorem parse_subjects_nonempty (s : String) : ∀ x ∈ parse_subjects s, x ≠ "" := by
  intro x hx
  unfold parse_subjects at hx
  split at hx
  · simp at hx
  · rcases List.mem_filterMap.mp hx with ⟨part, _, hp⟩
    by_cases ht : pyStrip part = ""
    · simp [ht] at hp
    · simp only [if_neg ht, Option.some.injEq] at hp
      exact fun he => ht (hp.trans he)

theorem normalize_month_empty_field (d : String) : normalize_month "" d = pyTake 7 d := by
  have h0 : pyStrip "" = "" := rfl
  by_cases hd : d = ""
  · subst hd
    decide
  · simp [normalize_month, h0, hd]

/-- Claim C9. The field normalizers are total on the values the loaders hand
them and return degraded-but-present values: the highlights parser succeeds
on every string or missing field, every image the image parser returns has a
non-empty url whatever the input value, the boolean parser maps absence to
false, the month normalizer truncates the fallback date when the month field
is empty, the date normalizer passes the trimmed selection through on any
parse failure, and the subjects parser returns only non-empty entries. -/
theorem C9_normalizers_total (v : PyVal) (s a b d : String) :
    isOkE (parse_highlights (PyVal.str s)) = true
  ∧ isOkE (parse_highlights PyVal.none) = true
  ∧ (∀ img ∈ parse_images v, img.url ≠ "")
  ∧ parse_bool PyVal.none = false
  ∧ normalize_month "" d = pyTake 7 d
  ∧ (pyStrip (pyOr a b) ≠ "" → dateDispatch (pyStrip (pyOr a b)) = Option.none →
      normalize_date a b = pyStrip (pyOr a b))
  ∧ (∀ x ∈ parse_subjects s, x ≠ "") :=
  ⟨parse_highlights_str_isOk s, rfl, parse_images_urls v, rfl,
   normalize_month_empty_field d, normalize_date_passthrough a b,
   parse_subjects_nonempty s⟩

/-- Witness for claim C9 at concrete normalizer inputs. -/
theorem C9_witness :
    (Image.mk "u" "c").url ≠ "" ∧ normalize_date "zz" "" = "zz" ∧ ("x" : String) ≠ "" :=
  ⟨(C9_normalizers_total (PyVal.str "u|c") "x;y" "zz" "" "2024-05-06").2.2.1
      ⟨"u", "c"⟩ (by decide),
   (C9_normalizers_total (PyVal.str "u|c") "x;y" "zz" "" "2024-05-06").2.2.2.2.2.1
      (by decide) (by decide),
   (C9_normalizers_total (PyVal.str "u|c") "x;y" "zz" "" "2024-05-06").2.2.2.2.2.2
      "x" (by decide)⟩

end BuildJournalClub

